import Mathlib

/-!
Verification of the reply-parsing and metric-mapping pipeline of
clamav-prometheus-exporter (`pkg/collector/collector.go`, function `Collect`).

The `Collect` method performs three exchanges with the daemon in a fixed
order — PING, STATS, VERSION — and extracts metric observations from the
raw replies using four Go regular expressions:

  * `THREADS: live ([0-9]+)  idle ([0-9]+) max ([0-9]+) `
  * `QUEUE:: ([0-9]+) items`
  * `MEMSTATS: heap (N/A|[0-9]+) mmap (N/A|[0-9]+) used (N/A|[0-9]+) free (N/A|[0-9]+) releasable (N/A|[0-9]+) pools ([0-9]+) pools_used ([0-9.]+)M pools_total ([0-9.]+)M`
  * `((ClamAV)+\s([0-9.]*)/([0-9.]*))`

Each regex is run with `FindAllStringSubmatch` and only `matches[0]` — the
leftmost match — is consumed.  Captured substrings are converted with a
local helper `float` that calls `strconv.ParseFloat` and, on conversion
error, `log.Fatalf`, which terminates the whole process.

The embedding below models replies as Lean `String`s (the Go code works on
`string(reply)`), each regex as a hand-transcribed matcher on `List Char`,
leftmost matching as a left-to-right scan (`findFirst`), and numeric values
exactly as rationals (`ℚ`).  Go's regexes here are deterministic: every
repeated class (`[0-9]+`, `[0-9.]+`, `[0-9.]*`, `(ClamAV)+`) is followed by
a character (or literal) that cannot extend the repetition, so Go's
leftmost-first matching coincides with maximal munch, which is what the
matchers implement.  `strconv.ParseFloat` is modelled on the character
classes the regexes can capture (digits and dots): it succeeds exactly when
the token has at least one digit and at most one dot.  The exact-rational
idealisation of `float64` is used for numeric values.  `log.Fatalf`
(process abort) is modelled by a `Bool` "fatal" flag that stops the pass.
-/

namespace ClamAV

/-- Digit test for the regex class `[0-9]`; same as Go's `[0-9]`. -/
def isDigitCh (c : Char) : Bool := c.isDigit

/-- Test for the regex class `[0-9.]`. -/
def isDotDigit (c : Char) : Bool := c.isDigit || c == '.'

/-- Test for Go's regex class `\s`, i.e. `[\t\n\f\r ]`. -/
def isGoSpace (c : Char) : Bool :=
  c == ' ' || c == '\t' || c == '\n' || c == Char.ofNat 12 || c == '\r'

/-- Match a literal character sequence at the head of the input, returning
the rest of the input on success (the regex treatment of literal text). -/
def stripLit : List Char → List Char → Option (List Char)
  | [], cs => some cs
  | _ :: _, [] => none
  | l :: ls, c :: cs => if c = l then stripLit ls cs else none

/-- Maximal munch: split off the longest prefix whose characters satisfy
`p` (the semantics of a greedy `X*` whose continuation cannot start with a
character of the class `X`). -/
def munch (p : Char → Bool) : List Char → List Char × List Char
  | [] => ([], [])
  | c :: cs =>
    if p c then
      let r := munch p cs
      (c :: r.1, r.2)
    else ([], c :: cs)

/-- Greedy `X+` capture: like `munch` but failing on an empty capture. -/
def capStep (p : Char → Bool) (cs : List Char) : Option (List Char × List Char) :=
  if (munch p cs).1 = [] then none else some (munch p cs)

/-- The alternation `(N/A|[0-9]+)` of the MEMSTATS regex.  Go tries the
branches left to right; the branches start with distinct character classes,
so the choice is deterministic. -/
def naStep (cs : List Char) : Option (List Char × List Char) :=
  match stripLit "N/A".toList cs with
  | some rest => some ("N/A".toList, rest)
  | none => capStep isDigitCh cs

/-- Matcher for `THREADS: live ([0-9]+)  idle ([0-9]+) max ([0-9]+) `
anchored at the head of the input (note the two spaces before `idle` and
the trailing space after the third capture, both literal in the source
regex); returns the three captured digit strings. -/
def matchThreadsAt (cs : List Char) : Option (String × String × String) :=
  (stripLit "THREADS: live ".toList cs).bind fun cs =>
  (capStep isDigitCh cs).bind fun r1 =>
  (stripLit "  idle ".toList r1.2).bind fun cs =>
  (capStep isDigitCh cs).bind fun r2 =>
  (stripLit " max ".toList r2.2).bind fun cs =>
  (capStep isDigitCh cs).bind fun r3 =>
  (stripLit " ".toList r3.2).bind fun _ =>
  some (String.mk r1.1, String.mk r2.1, String.mk r3.1)

/-- Matcher for `QUEUE:: ([0-9]+) items` (the double colon is what the
source regex contains) anchored at the head of the input. -/
def matchQueueAt (cs : List Char) : Option String :=
  (stripLit "QUEUE:: ".toList cs).bind fun cs =>
  (capStep isDigitCh cs).bind fun r =>
  (stripLit " items".toList r.2).bind fun _ =>
  some (String.mk r.1)

/-- The eight capture groups of the MEMSTATS regex, in source order. -/
structure MemCaps where
  heap : String
  mmap : String
  used : String
  free : String
  releasable : String
  pools : String
  pu : String
  pt : String
deriving DecidableEq, Repr

/-- One `<separator> (N/A|[0-9]+)` section of the MEMSTATS regex: the
literal separator text followed by the alternation capture. -/
def memSection (lit : List Char) (cs : List Char) : Option (List Char × List Char) :=
  (stripLit lit cs).bind fun cs => naStep cs

/-- Matcher for the five leading `<name> (N/A|[0-9]+)` sections of the
MEMSTATS regex (`heap`, `mmap`, `used`, `free`, `releasable`), anchored at
the head of the input; returns the five captures and the rest. -/
def matchMemHead (cs : List Char) :
    Option (List Char × List Char × List Char × List Char × List Char × List Char) :=
  (stripLit "MEMSTATS: heap ".toList cs).bind fun cs =>
  (naStep cs).bind fun h =>
  (memSection " mmap ".toList h.2).bind fun m =>
  (memSection " used ".toList m.2).bind fun u =>
  (memSection " free ".toList u.2).bind fun f =>
  (memSection " releasable ".toList f.2).bind fun r =>
  some (h.1, m.1, u.1, f.1, r.1, r.2)

/-- Matcher for the trailing
`pools ([0-9]+) pools_used ([0-9.]+)M pools_total ([0-9.]+)M` section of
the MEMSTATS regex, anchored at the head of the input. -/
def matchMemTail (cs : List Char) : Option (List Char × List Char × List Char) :=
  (stripLit " pools ".toList cs).bind fun cs =>
  (capStep isDigitCh cs).bind fun p =>
  (stripLit " pools_used ".toList p.2).bind fun cs =>
  (capStep isDotDigit cs).bind fun pu =>
  (stripLit "M pools_total ".toList pu.2).bind fun cs =>
  (capStep isDotDigit cs).bind fun pt =>
  (stripLit "M".toList pt.2).bind fun _ =>
  some (p.1, pu.1, pt.1)

/-- Matcher for the MEMSTATS regex anchored at the head of the input:
the head sections followed by the tail sections, assembling the eight
captures in source order. -/
def matchMemstatsAt (cs : List Char) : Option MemCaps :=
  (matchMemHead cs).bind fun hd =>
  (matchMemTail hd.2.2.2.2.2).bind fun tl =>
  some ⟨String.mk hd.1, String.mk hd.2.1, String.mk hd.2.2.1, String.mk hd.2.2.2.1,
        String.mk hd.2.2.2.2.1, String.mk tl.1, String.mk tl.2.1, String.mk tl.2.2⟩

/-- One-or-more repetitions of the literal `ClamAV`, maximal munch, with
explicit fuel (the input length bounds the number of repetitions, each of
which consumes six characters, so the fuel never runs out). -/
def clamavPlusAux : Nat → List Char → Option (List Char)
  | 0, _ => none
  | Nat.succ n, cs =>
    match stripLit "ClamAV".toList cs with
    | none => none
    | some rest =>
      match clamavPlusAux n rest with
      | some r => some r
      | none => some rest

/-- The sub-pattern `(ClamAV)+` of the version regex: consume one or more
`ClamAV` literals.  A shorter repetition can never help, because the
continuation `\s` cannot hold where another `ClamAV` starts. -/
def clamavPlus (cs : List Char) : Option (List Char) :=
  clamavPlusAux cs.length cs

/-- Matcher for `((ClamAV)+\s([0-9.]*)/([0-9.]*))` anchored at the head of
the input; returns capture groups 3 and 4 (the only ones the code uses). -/
def matchVersionAt (cs : List Char) : Option (String × String) :=
  (clamavPlus cs).bind fun cs =>
  match cs with
  | [] => none
  | c :: cs =>
    if isGoSpace c then
      let e := munch isDotDigit cs
      (stripLit "/".toList e.2).bind fun cs =>
      let d := munch isDotDigit cs
      some (String.mk e.1, String.mk d.1)
    else none

/-- Leftmost match: scan positions left to right and return the first
position where the anchored matcher succeeds — the semantics of
`matches[0]` of Go's `FindAllStringSubmatch`. -/
def findFirst {α : Type} (m : List Char → Option α) : List Char → Option α
  | [] => m []
  | c :: cs =>
    match m (c :: cs) with
    | some r => some r
    | none => findFirst m cs

/-- Decimal value of a digit string. -/
def decValNat (cs : List Char) : Nat :=
  cs.foldl (fun n c => 10 * n + (c.toNat - '0'.toNat)) 0

/-- Embedding of the local helper `float` built on `strconv.ParseFloat`,
restricted to the character classes the four regexes can capture (digits
and dots): conversion succeeds exactly when the token has at least one
digit and at most one dot, and yields its exact decimal value — all the
digits read as an integer, divided by ten to the number of fraction
digits — as a rational (the exact-rational idealisation of `float64`).
On any other token the regexes can produce — e.g. `1.2.3` or `..` —
`ParseFloat` returns an error and the Go helper calls `log.Fatalf`,
modelled by `none`. -/
def parseGoFloat (s : String) : Option ℚ :=
  let cs := s.toList
  if cs.all isDotDigit ∧ cs.any isDigitCh ∧ cs.count '.' ≤ 1 then
    let ip := munch (fun c => c != '.') cs
    let fp := ip.2.drop 1
    some (mkRat (decValNat (ip.1 ++ fp)) (10 ^ fp.length))
  else none

/-- Exact value of an all-digit capture. -/
def decVal (s : String) : ℚ := (decValNat s.toList : ℚ)

/-- A non-empty all-digit string — the shape of every `[0-9]+` capture. -/
def digitStr (s : String) : Prop :=
  s.toList ≠ [] ∧ s.toList.all isDigitCh = true

/-- One metric observation sent to the prometheus channel, identified by
the `Desc` the code attaches and carrying the observed value (and, for
`buildInfo`, the two label strings). -/
inductive Metric
  | up (v : ℚ)
  | threadsLive (v : ℚ)
  | threadsIdle (v : ℚ)
  | threadsMax (v : ℚ)
  | queue (v : ℚ)
  | memHeap (v : ℚ)
  | memMmap (v : ℚ)
  | memUsed (v : ℚ)
  | poolsUsed (v : ℚ)
  | poolsTotal (v : ℚ)
  | buildInfo (v : ℚ) (clamavVersion databaseVersion : String)
deriving DecidableEq, Repr

/-- Test for the three thread gauges. -/
def isThreads : Metric → Bool
  | .threadsLive _ => true
  | .threadsIdle _ => true
  | .threadsMax _ => true
  | _ => false

/-- Test for the five MEMSTATS-derived gauges. -/
def isMemMetric : Metric → Bool
  | .memHeap _ => true
  | .memMmap _ => true
  | .memUsed _ => true
  | .poolsUsed _ => true
  | .poolsTotal _ => true
  | _ => false

/-- The three wire commands `Collect` issues, in source order. -/
inductive Command
  | ping
  | stats
  | version
deriving DecidableEq, Repr

/-- Emit one metric built from a captured substring via the `float`
helper; a conversion failure aborts the process (`log.Fatalf`), recorded
as a `true` fatal flag with nothing emitted for this capture. -/
def emitFloat (mk : ℚ → Metric) (s : String) : List Metric × Bool :=
  match parseGoFloat s with
  | none => ([], true)
  | some q => ([mk q], false)

/-- Sequence two emission fragments; if the first aborted the process the
second never runs. -/
def andThen (a b : List Metric × Bool) : List Metric × Bool :=
  if a.2 then a else (a.1 ++ b.1, b.2)

/-- The THREADS block of `Collect`: on a leftmost match, emit the three
thread gauges from the first match's captures; otherwise emit nothing. -/
def threadsBlock (cs : List Char) : List Metric × Bool :=
  match findFirst matchThreadsAt cs with
  | none => ([], false)
  | some t =>
    andThen (emitFloat Metric.threadsLive t.1)
      (andThen (emitFloat Metric.threadsIdle t.2.1) (emitFloat Metric.threadsMax t.2.2))

/-- The QUEUE block of `Collect`. -/
def queueBlock (cs : List Char) : List Metric × Bool :=
  match findFirst matchQueueAt cs with
  | none => ([], false)
  | some n => emitFloat Metric.queue n

/-- Emission for one matched MEMSTATS line: heap/mmap/used are emitted
only when their capture differs from `N/A`; pools_used and pools_total are
emitted unconditionally (captures already exclude the `M` suffix). -/
def memEmit (caps : MemCaps) : List Metric × Bool :=
  andThen (if caps.heap = "N/A" then ([], false) else emitFloat Metric.memHeap caps.heap)
    (andThen (if caps.mmap = "N/A" then ([], false) else emitFloat Metric.memMmap caps.mmap)
      (andThen (if caps.used = "N/A" then ([], false) else emitFloat Metric.memUsed caps.used)
        (andThen (emitFloat Metric.poolsUsed caps.pu) (emitFloat Metric.poolsTotal caps.pt))))

/-- The MEMSTATS block of `Collect`. -/
def memBlock (cs : List Char) : List Metric × Bool :=
  match findFirst matchMemstatsAt cs with
  | none => ([], false)
  | some caps => memEmit caps

/-- Processing of the STATS reply: the three regex blocks in source order,
stopping if one of them aborts the process. -/
def collectStats (s : String) : List Metric × Bool :=
  andThen (threadsBlock s.toList) (andThen (queueBlock s.toList) (memBlock s.toList))

/-- Processing of the PING reply: emit `up` with value 1 exactly when the
raw reply is the 5-byte sequence `PONG\n`. -/
def collectLiveness (p : String) : List Metric :=
  if p = "PONG\n" then [Metric.up 1] else []

/-- Processing of the VERSION reply: on a leftmost match of the version
regex, emit `buildInfo` with value 1 carrying capture groups 3 and 4 as
labels; no float conversion happens here, so this step never aborts. -/
def collectVersion (v : String) : List Metric :=
  match findFirst matchVersionAt v.toList with
  | none => []
  | some e => [Metric.buildInfo 1 e.1 e.2]

/-- One whole collection pass of `Collect`, given the three raw replies:
the commands actually dialed (in order), the metrics sent to the channel
(in order), and whether the process was aborted by `log.Fatalf`.  The
VERSION exchange is dialed only if STATS processing did not abort. -/
def collect (p s v : String) : List Command × List Metric × Bool :=
  if (collectStats s).2 then
    ([Command.ping, Command.stats], collectLiveness p ++ (collectStats s).1, true)
  else
    ([Command.ping, Command.stats, Command.version],
      collectLiveness p ++ (collectStats s).1 ++ collectVersion v, false)

/-! ### Basic facts about the matching primitives -/

lemma munch_fst_all (p : Char → Bool) : ∀ cs : List Char, ((munch p cs).1).all p = true := by
  intro cs
  induction cs with
  | nil => rfl
  | cons c cs ih =>
    by_cases h : p c = true
    · simp [munch, h, ih]
    · simp [munch, h]

lemma munch_of_all (p : Char → Bool) :
    ∀ cs : List Char, cs.all p = true → munch p cs = (cs, []) := by
  intro cs
  induction cs with
  | nil => intro; rfl
  | cons c cs ih =>
    intro h
    rw [List.all_cons, Bool.and_eq_true] at h
    simp [munch, h.1, ih h.2]

lemma capStep_sat {p : Char → Bool} {cs : List Char} {r : List Char × List Char}
    (h : capStep p cs = some r) : r.1 ≠ [] ∧ r.1.all p = true := by
  unfold capStep at h
  split at h
  · exact absurd h (by simp)
  · rename_i hne
    cases h
    exact ⟨hne, munch_fst_all p cs⟩

lemma naStep_sat {cs : List Char} {r : List Char × List Char}
    (h : naStep cs = some r) :
    r.1 = "N/A".toList ∨ (r.1 ≠ [] ∧ r.1.all isDigitCh = true) := by
  unfold naStep at h
  cases hsplit : stripLit "N/A".toList cs with
  | some rest => rw [hsplit] at h; cases h; exact Or.inl rfl
  | none => rw [hsplit] at h; exact Or.inr (capStep_sat h)

lemma memSection_sat {lit cs : List Char} {r : List Char × List Char}
    (h : memSection lit cs = some r) :
    r.1 = "N/A".toList ∨ (r.1 ≠ [] ∧ r.1.all isDigitCh = true) := by
  unfold memSection at h
  rw [Option.bind_eq_some] at h
  obtain ⟨cs1, _, h2⟩ := h
  exact naStep_sat h2

/-! ### The float helper on all-digit captures -/

lemma parseGoFloat_digits (s : String) (h1 : s.toList ≠ [])
    (h2 : s.toList.all isDigitCh = true) : parseGoFloat s = some (decVal s) := by
  have hd : ∀ c ∈ s.toList, isDigitCh c = true := by
    intro c hc
    exact List.all_eq_true.mp h2 c hc
  have hdot : ∀ c ∈ s.toList, c ≠ '.' := by
    intro c hc he
    have := hd c hc
    rw [he] at this
    exact absurd this (by decide)
  have hall : s.toList.all isDotDigit = true := by
    refine List.all_eq_true.mpr fun c hc => ?_
    have := hd c hc
    simp [isDotDigit, isDigitCh] at this ⊢
    exact Or.inl this
  have hany : s.toList.any isDigitCh = true := by
    cases he : s.toList with
    | nil => exact absurd he h1
    | cons c l =>
      have : c ∈ s.toList := by rw [he]; exact List.mem_cons_self c l
      simp [List.any_cons, hd c this]
  have hcount : s.toList.count '.' = 0 :=
    List.count_eq_zero.mpr fun hm => hdot '.' hm rfl
  have hne : s.toList.all (fun c => c != '.') = true :=
    List.all_eq_true.mpr fun c hc => bne_iff_ne.mpr (hdot c hc)
  unfold parseGoFloat
  rw [if_pos ⟨hall, hany, by rw [hcount]; exact Nat.zero_le 1⟩,
    munch_of_all _ _ hne]
  simp [decVal, Rat.mkRat_one]

/-! ### Leftmost matching -/

lemma findFirst_min {α : Type} (m : List Char → Option α) :
    ∀ (cs : List Char) (i : ℕ) (x : α), m (cs.drop i) = some x →
      (∀ j, j < i → m (cs.drop j) = none) → findFirst m cs = some x := by
  intro cs
  induction cs with
  | nil =>
    intro i x hx _
    rw [List.drop_nil] at hx
    exact hx
  | cons c cs ih =>
    intro i x hx hnone
    cases i with
    | zero =>
      rw [List.drop_zero] at hx
      unfold findFirst
      rw [hx]
    | succ i =>
      have h0 : m (c :: cs) = none := by
        have := hnone 0 (Nat.succ_pos i)
        rwa [List.drop_zero] at this
      unfold findFirst
      rw [h0]
      refine ih i x ?_ ?_
      · rwa [List.drop_succ_cons] at hx
      · intro j hj
        have := hnone (j + 1) (Nat.succ_lt_succ hj)
        rwa [List.drop_succ_cons] at this

lemma findFirst_some {α : Type} (m : List Char → Option α) :
    ∀ (cs : List Char) (x : α), findFirst m cs = some x →
      ∃ i, m (cs.drop i) = some x := by
  intro cs
  induction cs with
  | nil =>
    intro x hx
    exact ⟨0, hx⟩
  | cons c cs ih =>
    intro x hx
    unfold findFirst at hx
    cases hm : m (c :: cs) with
    | some r =>
      rw [hm] at hx
      cases hx
      exact ⟨0, hm⟩
    | none =>
      rw [hm] at hx
      obtain ⟨i, hi⟩ := ih x hx
      exact ⟨i + 1, by rwa [List.drop_succ_cons]⟩

/-! ### Shapes of the captured substrings -/

lemma matchThreadsAt_caps {cs : List Char} {t : String × String × String}
    (h : matchThreadsAt cs = some t) :
    digitStr t.1 ∧ digitStr t.2.1 ∧ digitStr t.2.2 := by
  unfold matchThreadsAt at h
  simp only [Option.bind_eq_some, Option.some.injEq] at h
  obtain ⟨c1, h1, r1, hr1, c2, h2, r2, hr2, c3, h3, r3, hr3, c4, h4, ht⟩ := h
  subst ht
  obtain ⟨n1, a1⟩ := capStep_sat hr1
  obtain ⟨n2, a2⟩ := capStep_sat hr2
  obtain ⟨n3, a3⟩ := capStep_sat hr3
  exact ⟨⟨n1, a1⟩, ⟨n2, a2⟩, ⟨n3, a3⟩⟩

lemma matchQueueAt_caps {cs : List Char} {n : String}
    (h : matchQueueAt cs = some n) : digitStr n := by
  unfold matchQueueAt at h
  simp only [Option.bind_eq_some, Option.some.injEq] at h
  obtain ⟨c1, h1, r1, hr1, c2, h2, hn⟩ := h
  subst hn
  obtain ⟨n1, a1⟩ := capStep_sat hr1
  exact ⟨n1, a1⟩

lemma naToStr {t : List Char}
    (h : t = "N/A".toList ∨ (t ≠ [] ∧ t.all isDigitCh = true)) :
    String.mk t = "N/A" ∨ digitStr (String.mk t) := by
  rcases h with h | h
  · exact Or.inl ((congrArg String.mk h).trans rfl)
  · exact Or.inr h

lemma matchMemstatsAt_caps {cs : List Char} {caps : MemCaps}
    (h : matchMemstatsAt cs = some caps) :
    (caps.heap = "N/A" ∨ digitStr caps.heap) ∧
    (caps.mmap = "N/A" ∨ digitStr caps.mmap) ∧
    (caps.used = "N/A" ∨ digitStr caps.used) := by
  unfold matchMemstatsAt matchMemHead at h
  simp only [Option.bind_eq_some, Option.some.injEq] at h
  obtain ⟨hd, ⟨c1, h1, hh, hna, m2, hm, u2, hu, f2, hf, r2, hr, hhd⟩, tl, htl, hcaps⟩ := h
  subst hhd
  subst hcaps
  exact ⟨naToStr (naStep_sat hna), naToStr (memSection_sat hm), naToStr (memSection_sat hu)⟩

/-! ### Emission fragments -/

lemma emitFloat_some {mk : ℚ → Metric} {s : String} {q : ℚ}
    (h : parseGoFloat s = some q) : emitFloat mk s = ([mk q], false) := by
  unfold emitFloat
  rw [h]

lemma emitFloat_mem {mk : ℚ → Metric} {s : String} {x : Metric}
    (h : x ∈ (emitFloat mk s).1) : ∃ q, x = mk q := by
  unfold emitFloat at h
  cases hp : parseGoFloat s with
  | none => rw [hp] at h; simp at h
  | some q =>
    rw [hp] at h
    simp at h
    exact ⟨q, h⟩

lemma andThen_false {a b : List Metric × Bool} (h : a.2 = false) :
    andThen a b = (a.1 ++ b.1, b.2) := by
  simp [andThen, h]

lemma mem_andThen {a b : List Metric × Bool} {x : Metric}
    (h : x ∈ (andThen a b).1) : x ∈ a.1 ∨ x ∈ b.1 := by
  unfold andThen at h
  split at h
  · exact Or.inl h
  · exact List.mem_append.mp h

/-! ### The three STATS blocks -/

lemma threadsBlock_eq_none {cs : List Char} (h : findFirst matchThreadsAt cs = none) :
    threadsBlock cs = ([], false) := by
  unfold threadsBlock
  rw [h]

lemma threadsBlock_eq_some {cs : List Char} {t : String × String × String}
    (h : findFirst matchThreadsAt cs = some t) :
    threadsBlock cs = ([Metric.threadsLive (decVal t.1), Metric.threadsIdle (decVal t.2.1),
      Metric.threadsMax (decVal t.2.2)], false) := by
  obtain ⟨i, hi⟩ := findFirst_some _ _ _ h
  obtain ⟨d1, d2, d3⟩ := matchThreadsAt_caps hi
  have hb : threadsBlock cs = andThen (emitFloat Metric.threadsLive t.1)
      (andThen (emitFloat Metric.threadsIdle t.2.1) (emitFloat Metric.threadsMax t.2.2)) := by
    unfold threadsBlock
    rw [h]
  rw [hb, emitFloat_some (parseGoFloat_digits _ d1.1 d1.2),
    emitFloat_some (parseGoFloat_digits _ d2.1 d2.2),
    emitFloat_some (parseGoFloat_digits _ d3.1 d3.2)]
  rfl

lemma threadsBlock_snd (cs : List Char) : (threadsBlock cs).2 = false := by
  cases h : findFirst matchThreadsAt cs with
  | none => rw [threadsBlock_eq_none h]
  | some t => rw [threadsBlock_eq_some h]

lemma threadsBlock_shape {cs : List Char} {x : Metric} (h : x ∈ (threadsBlock cs).1) :
    ∃ q, x = Metric.threadsLive q ∨ x = Metric.threadsIdle q ∨ x = Metric.threadsMax q := by
  unfold threadsBlock at h
  cases hf : findFirst matchThreadsAt cs with
  | none => rw [hf] at h; simp at h
  | some t =>
    rw [hf] at h
    rcases mem_andThen h with h | h
    · obtain ⟨q, hq⟩ := emitFloat_mem h
      exact ⟨q, Or.inl hq⟩
    · rcases mem_andThen h with h | h
      · obtain ⟨q, hq⟩ := emitFloat_mem h
        exact ⟨q, Or.inr (Or.inl hq)⟩
      · obtain ⟨q, hq⟩ := emitFloat_mem h
        exact ⟨q, Or.inr (Or.inr hq)⟩

lemma queueBlock_eq_none {cs : List Char} (h : findFirst matchQueueAt cs = none) :
    queueBlock cs = ([], false) := by
  unfold queueBlock
  rw [h]

lemma queueBlock_eq_some {cs : List Char} {n : String}
    (h : findFirst matchQueueAt cs = some n) :
    queueBlock cs = ([Metric.queue (decVal n)], false) := by
  obtain ⟨i, hi⟩ := findFirst_some _ _ _ h
  obtain ⟨n1, a1⟩ := matchQueueAt_caps hi
  have hb : queueBlock cs = emitFloat Metric.queue n := by
    unfold queueBlock
    rw [h]
  rw [hb, emitFloat_some (parseGoFloat_digits _ n1 a1)]

lemma queueBlock_snd (cs : List Char) : (queueBlock cs).2 = false := by
  cases h : findFirst matchQueueAt cs with
  | none => rw [queueBlock_eq_none h]
  | some n => rw [queueBlock_eq_some h]

lemma queueBlock_shape {cs : List Char} {x : Metric} (h : x ∈ (queueBlock cs).1) :
    ∃ q, x = Metric.queue q := by
  unfold queueBlock at h
  cases hf : findFirst matchQueueAt cs with
  | none => rw [hf] at h; simp at h
  | some n =>
    rw [hf] at h
    exact emitFloat_mem h

lemma memEmit_shape {caps : MemCaps} {x : Metric} (h : x ∈ (memEmit caps).1) :
    ∃ q, x = Metric.memHeap q ∨ x = Metric.memMmap q ∨ x = Metric.memUsed q ∨
      x = Metric.poolsUsed q ∨ x = Metric.poolsTotal q := by
  unfold memEmit at h
  rcases mem_andThen h with h | h
  · split at h
    · simp at h
    · obtain ⟨q, hq⟩ := emitFloat_mem h
      exact ⟨q, Or.inl hq⟩
  rcases mem_andThen h with h | h
  · split at h
    · simp at h
    · obtain ⟨q, hq⟩ := emitFloat_mem h
      exact ⟨q, Or.inr (Or.inl hq)⟩
  rcases mem_andThen h with h | h
  · split at h
    · simp at h
    · obtain ⟨q, hq⟩ := emitFloat_mem h
      exact ⟨q, Or.inr (Or.inr (Or.inl hq))⟩
  rcases mem_andThen h with h | h
  · obtain ⟨q, hq⟩ := emitFloat_mem h
    exact ⟨q, Or.inr (Or.inr (Or.inr (Or.inl hq)))⟩
  · obtain ⟨q, hq⟩ := emitFloat_mem h
    exact ⟨q, Or.inr (Or.inr (Or.inr (Or.inr hq)))⟩

lemma memBlock_eq_none {cs : List Char} (h : findFirst matchMemstatsAt cs = none) :
    memBlock cs = ([], false) := by
  unfold memBlock
  rw [h]

lemma memBlock_eq_some {cs : List Char} {caps : MemCaps}
    (h : findFirst matchMemstatsAt cs = some caps) : memBlock cs = memEmit caps := by
  unfold memBlock
  rw [h]

lemma memBlock_shape {cs : List Char} {x : Metric} (h : x ∈ (memBlock cs).1) :
    ∃ q, x = Metric.memHeap q ∨ x = Metric.memMmap q ∨ x = Metric.memUsed q ∨
      x = Metric.poolsUsed q ∨ x = Metric.poolsTotal q := by
  unfold memBlock at h
  cases hf : findFirst matchMemstatsAt cs with
  | none => rw [hf] at h; simp at h
  | some caps =>
    rw [hf] at h
    exact memEmit_shape h

/-! ### The whole pass -/

lemma collectStats_fst (s : String) :
    (collectStats s).1 =
      (threadsBlock s.toList).1 ++ ((queueBlock s.toList).1 ++ (memBlock s.toList).1) := by
  unfold collectStats
  rw [andThen_false (queueBlock_snd _), andThen_false (threadsBlock_snd _)]

lemma mem_collectStats {s : String} {x : Metric} (h : x ∈ (collectStats s).1) :
    x ∈ (threadsBlock s.toList).1 ∨ x ∈ (queueBlock s.toList).1 ∨ x ∈ (memBlock s.toList).1 := by
  rw [collectStats_fst] at h
  rcases List.mem_append.mp h with h | h
  · exact Or.inl h
  · exact Or.inr (List.mem_append.mp h)

lemma mem_collectLiveness {p : String} {x : Metric} :
    x ∈ collectLiveness p ↔ p = "PONG\n" ∧ x = Metric.up 1 := by
  by_cases h : p = "PONG\n" <;> simp [collectLiveness, h]

lemma collectVersion_shape {v : String} {x : Metric} (h : x ∈ collectVersion v) :
    ∃ e d, x = Metric.buildInfo 1 e d := by
  unfold collectVersion at h
  cases hf : findFirst matchVersionAt v.toList with
  | none => rw [hf] at h; simp at h
  | some e =>
    rw [hf] at h
    simp at h
    exact ⟨e.1, e.2, h⟩

lemma collect_metrics (p s v : String) :
    (collect p s v).2.1 = collectLiveness p ++ (collectStats s).1 ++
      (if (collectStats s).2 then [] else collectVersion v) := by
  unfold collect
  by_cases h : (collectStats s).2 <;> simp [h]

lemma mem_collectStats_threads {s : String} {x : Metric}
    (hx : x ∈ (collectStats s).1) (ht : isThreads x = true) :
    x ∈ (threadsBlock s.toList).1 := by
  rcases mem_collectStats hx with h | h | h
  · exact h
  · obtain ⟨r, hr⟩ := queueBlock_shape h
    subst hr
    simp [isThreads] at ht
  · obtain ⟨r, hr⟩ := memBlock_shape h
    rcases hr with hr | hr | hr | hr | hr <;> subst hr <;> simp [isThreads] at ht

lemma mem_collectStats_memMetric {s : String} {x : Metric}
    (hx : x ∈ (collectStats s).1) (ht : isMemMetric x = true) :
    x ∈ (memBlock s.toList).1 := by
  rcases mem_collectStats hx with h | h | h
  · obtain ⟨r, hr⟩ := threadsBlock_shape h
    rcases hr with hr | hr | hr <;> subst hr <;> simp [isMemMetric] at ht
  · obtain ⟨r, hr⟩ := queueBlock_shape h
    subst hr
    simp [isMemMetric] at ht
  · exact h

lemma up_notin_collectStats (s : String) (q : ℚ) : Metric.up q ∉ (collectStats s).1 := by
  intro h
  rcases mem_collectStats h with h | h | h
  · obtain ⟨r, hr⟩ := threadsBlock_shape h
    rcases hr with hr | hr | hr <;> exact Metric.noConfusion hr
  · obtain ⟨r, hr⟩ := queueBlock_shape h
    exact Metric.noConfusion hr
  · obtain ⟨r, hr⟩ := memBlock_shape h
    rcases hr with hr | hr | hr | hr | hr <;> exact Metric.noConfusion hr

lemma memEmit_eq {caps : MemCaps} {qu qt : ℚ}
    (hh : caps.heap = "N/A" ∨ digitStr caps.heap)
    (hm : caps.mmap = "N/A" ∨ digitStr caps.mmap)
    (hu : caps.used = "N/A" ∨ digitStr caps.used)
    (hqu : parseGoFloat caps.pu = some qu)
    (hqt : parseGoFloat caps.pt = some qt) :
    memEmit caps =
      ((if caps.heap = "N/A" then [] else [Metric.memHeap (decVal caps.heap)]) ++
        ((if caps.mmap = "N/A" then [] else [Metric.memMmap (decVal caps.mmap)]) ++
          ((if caps.used = "N/A" then [] else [Metric.memUsed (decVal caps.used)]) ++
            [Metric.poolsUsed qu, Metric.poolsTotal qt])), false) := by
  have e1 : (if caps.heap = "N/A" then (([], false) : List Metric × Bool)
      else emitFloat Metric.memHeap caps.heap) =
      ((if caps.heap = "N/A" then [] else [Metric.memHeap (decVal caps.heap)]), false) := by
    by_cases h2 : caps.heap = "N/A"
    · simp [h2]
    · rcases hh with h | h
      · exact absurd h h2
      · simp [h2, emitFloat_some (parseGoFloat_digits _ h.1 h.2)]
  have e2 : (if caps.mmap = "N/A" then (([], false) : List Metric × Bool)
      else emitFloat Metric.memMmap caps.mmap) =
      ((if caps.mmap = "N/A" then [] else [Metric.memMmap (decVal caps.mmap)]), false) := by
    by_cases h2 : caps.mmap = "N/A"
    · simp [h2]
    · rcases hm with h | h
      · exact absurd h h2
      · simp [h2, emitFloat_some (parseGoFloat_digits _ h.1 h.2)]
  have e3 : (if caps.used = "N/A" then (([], false) : List Metric × Bool)
      else emitFloat Metric.memUsed caps.used) =
      ((if caps.used = "N/A" then [] else [Metric.memUsed (decVal caps.used)]), false) := by
    by_cases h2 : caps.used = "N/A"
    · simp [h2]
    · rcases hu with h | h
      · exact absurd h h2
      · simp [h2, emitFloat_some (parseGoFloat_digits _ h.1 h.2)]
  unfold memEmit
  rw [e1, e2, e3, emitFloat_some hqu, emitFloat_some hqt]
  simp [andThen]

/-! ### The claims -/

/-- C1: the claim says a numeric conversion failure on a captured substring
leaves only that field absent and never terminates the pass or the process.
The code violates this: on the STATS reply below, the MEMSTATS regex
matches with pools_used capture `1.2.3`, `strconv.ParseFloat` fails on it,
and the `float` helper calls `log.Fatalf`, aborting the whole process
(fatal flag `true`) with only the `up` metric emitted and the VERSION
exchange never dialed. -/
theorem collect_aborts_on_unparsable_pools :
    collect "PONG\n"
      "MEMSTATS: heap N/A mmap N/A used N/A free N/A releasable N/A pools 1 pools_used 1.2.3M pools_total 1.2M"
      "ClamAV 0.102.4/26168"
    = ([Command.ping, Command.stats], [Metric.up 1], true) := by decide

/-- C2: the claim says a STATS reply containing the daemon's documented
line `QUEUE: 0 items` (single colon) yields a present queue_length field.
The code violates this: its regex is `QUEUE:: ([0-9]+) items` (double
colon), so the documented single-colon line — the one shown in the code's
own embedded sample output — never matches and nothing is emitted, while
the double-colon variant does match. -/
theorem queue_single_colon_not_matched :
    collectStats "QUEUE: 0 items\n" = ([], false) ∧
    collectStats "QUEUE:: 0 items\n" = ([Metric.queue 0], false) := by decide

/-- C3: an `up` observation (with value 1) is emitted by a collection pass
if and only if the raw PING reply is exactly the 5-byte sequence
`PONG\n`; no other value of `up` (in particular 0) is ever emitted. -/
theorem up_iff_pong (p s v : String) (q : ℚ) :
    Metric.up q ∈ (collect p s v).2.1 ↔ p = "PONG\n" ∧ q = 1 := by
  constructor
  · intro h
    rw [collect_metrics] at h
    rcases List.mem_append.mp h with h | h
    · rcases List.mem_append.mp h with h | h
      · obtain ⟨hp, hq⟩ := mem_collectLiveness.mp h
        refine ⟨hp, ?_⟩
        injection hq
      · exact absurd h (up_notin_collectStats s q)
    · split at h
      · simp at h
      · obtain ⟨e, d, he⟩ := collectVersion_shape h
        exact Metric.noConfusion he
  · rintro ⟨hp, hq⟩
    subst hp
    subst hq
    rw [collect_metrics]
    refine List.mem_append.mpr (Or.inl (List.mem_append.mpr (Or.inl ?_)))
    exact mem_collectLiveness.mpr ⟨rfl, rfl⟩

/-- C3 witness: at the exact reply `PONG\n` the pass emits `up` 1. -/
theorem up_iff_pong_witness :
    Metric.up 1 ∈ (collect "PONG\n" "" "").2.1 :=
  (up_iff_pong "PONG\n" "" "" 1).mpr ⟨rfl, rfl⟩

/-- C4 counterexample: the claim says any reply containing a well-formed
line `THREADS: live a  idle b max c` yields the three thread fields.  The
source regex ends with a literal trailing space after the third capture,
so the reply below — that exact line followed by a newline — emits
nothing at all. -/
theorem threads_line_without_trailing_space_unmatched :
    collectStats "THREADS: live 1  idle 2 max 3\n" = ([], false) := by decide

/-- C4 (amended): for every STATS reply in which the THREADS pattern
(with its trailing space, as in actual daemon output
`THREADS: live a  idle b max c idle-timeout t`) matches with captures
a, b, c, the three thread fields are present and equal a, b and c
exactly; when the pattern does not match, all three fields are absent,
not zero. -/
theorem threads_fields_of_match (s : String) :
    (∀ a b c : String, findFirst matchThreadsAt s.toList = some (a, b, c) →
      ∀ q : ℚ,
        (Metric.threadsLive q ∈ (collectStats s).1 ↔ q = decVal a) ∧
        (Metric.threadsIdle q ∈ (collectStats s).1 ↔ q = decVal b) ∧
        (Metric.threadsMax q ∈ (collectStats s).1 ↔ q = decVal c)) ∧
    (findFirst matchThreadsAt s.toList = none →
      ∀ q : ℚ, Metric.threadsLive q ∉ (collectStats s).1 ∧
        Metric.threadsIdle q ∉ (collectStats s).1 ∧
        Metric.threadsMax q ∉ (collectStats s).1) := by
  constructor
  · intro a b c h q
    have hb := threadsBlock_eq_some h
    refine ⟨⟨fun hmem => ?_, fun hq => ?_⟩, ⟨fun hmem => ?_, fun hq => ?_⟩,
      ⟨fun hmem => ?_, fun hq => ?_⟩⟩
    · have hx := mem_collectStats_threads hmem rfl
      rw [hb] at hx
      simpa using hx
    · subst hq
      rw [collectStats_fst, hb]
      simp
    · have hx := mem_collectStats_threads hmem rfl
      rw [hb] at hx
      simpa using hx
    · subst hq
      rw [collectStats_fst, hb]
      simp
    · have hx := mem_collectStats_threads hmem rfl
      rw [hb] at hx
      simpa using hx
    · subst hq
      rw [collectStats_fst, hb]
      simp
  · intro h q
    have hb := threadsBlock_eq_none h
    refine ⟨fun hmem => ?_, fun hmem => ?_, fun hmem => ?_⟩ <;>
    · have hx := mem_collectStats_threads hmem rfl
      rw [hb] at hx
      exact List.not_mem_nil _ hx

/-- C4 witness: a daemon-style reply with the trailing `idle-timeout`
text matches and round-trips live 10, idle 2, max 10. -/
theorem threads_fields_of_match_witness :
    Metric.threadsLive (decVal "10") ∈
      (collectStats "THREADS: live 10  idle 2 max 10 idle-timeout 30\n").1 ∧
    Metric.threadsIdle (decVal "2") ∈
      (collectStats "THREADS: live 10  idle 2 max 10 idle-timeout 30\n").1 ∧
    Metric.threadsMax (decVal "10") ∈
      (collectStats "THREADS: live 10  idle 2 max 10 idle-timeout 30\n").1 := by
  have h := (threads_fields_of_match "THREADS: live 10  idle 2 max 10 idle-timeout 30\n").1
    "10" "2" "10" (by decide)
  exact ⟨(h _).1.mpr rfl, (h _).2.1.mpr rfl, (h _).2.2.mpr rfl⟩

/-- C5 counterexample: the claim says that whenever the MEMSTATS line
matches the pattern, poolsUsed and poolsTotal are always present.  On the
reply below the pattern does match (pools_used capture `7..7`), but the
conversion fails, `log.Fatalf` aborts the pass and nothing at all is
emitted. -/
theorem pools_capture_crash :
    findFirst matchMemstatsAt
      "MEMSTATS: heap N/A mmap N/A used N/A free N/A releasable N/A pools 1 pools_used 7..7M pools_total 1M".toList
      = some ⟨"N/A", "N/A", "N/A", "N/A", "N/A", "1", "7..7", "1"⟩ ∧
    collectStats
      "MEMSTATS: heap N/A mmap N/A used N/A free N/A releasable N/A pools 1 pools_used 7..7M pools_total 1M"
      = ([], true) := by decide

/-- C5 (amended): for every STATS reply whose MEMSTATS line matches the
pattern and whose pools_used/pools_total captures convert successfully
(the `[0-9.]+` class also admits tokens like `7..7` on which the process
aborts): each of memHeap/memMmap/memUsed is present with the captured
integer value exactly when its capture is not `N/A`, and absent when it
is `N/A`; poolsUsed and poolsTotal are present with their converted
values, the trailing `M` already excluded by the capture group. -/
theorem memstats_fields_of_match (s : String) (caps : MemCaps) (qu qt : ℚ)
    (hm : findFirst matchMemstatsAt s.toList = some caps)
    (hqu : parseGoFloat caps.pu = some qu)
    (hqt : parseGoFloat caps.pt = some qt) :
    ((caps.heap ≠ "N/A" → Metric.memHeap (decVal caps.heap) ∈ (collectStats s).1) ∧
      (caps.heap = "N/A" → ∀ q, Metric.memHeap q ∉ (collectStats s).1)) ∧
    ((caps.mmap ≠ "N/A" → Metric.memMmap (decVal caps.mmap) ∈ (collectStats s).1) ∧
      (caps.mmap = "N/A" → ∀ q, Metric.memMmap q ∉ (collectStats s).1)) ∧
    ((caps.used ≠ "N/A" → Metric.memUsed (decVal caps.used) ∈ (collectStats s).1) ∧
      (caps.used = "N/A" → ∀ q, Metric.memUsed q ∉ (collectStats s).1)) ∧
    Metric.poolsUsed qu ∈ (collectStats s).1 ∧
    Metric.poolsTotal qt ∈ (collectStats s).1 := by
  obtain ⟨i, hi⟩ := findFirst_some _ _ _ hm
  obtain ⟨hh, hmm, huu⟩ := matchMemstatsAt_caps hi
  have hb := memBlock_eq_some hm
  have he := memEmit_eq hh hmm huu hqu hqt
  refine ⟨⟨fun hne => ?_, fun heq q hmem => ?_⟩, ⟨fun hne => ?_, fun heq q hmem => ?_⟩,
    ⟨fun hne => ?_, fun heq q hmem => ?_⟩, ?_, ?_⟩
  · rw [collectStats_fst, hb, he]
    simp [hne]
  · have hx := mem_collectStats_memMetric hmem rfl
    rw [hb, he] at hx
    by_cases h2 : caps.mmap = "N/A" <;> by_cases h3 : caps.used = "N/A" <;>
      simp [heq, h2, h3] at hx
  · rw [collectStats_fst, hb, he]
    simp [hne]
  · have hx := mem_collectStats_memMetric hmem rfl
    rw [hb, he] at hx
    by_cases h2 : caps.heap = "N/A" <;> by_cases h3 : caps.used = "N/A" <;>
      simp [heq, h2, h3] at hx
  · rw [collectStats_fst, hb, he]
    simp [hne]
  · have hx := mem_collectStats_memMetric hmem rfl
    rw [hb, he] at hx
    by_cases h2 : caps.heap = "N/A" <;> by_cases h3 : caps.mmap = "N/A" <;>
      simp [heq, h2, h3] at hx
  · rw [collectStats_fst, hb, he]
    simp
  · rw [collectStats_fst, hb, he]
    simp

/-- C5 witness: on the spec's fixture MEMSTATS line, heap/mmap/used are
`N/A` and absent, and the pools gauges carry 1143.596 and 1143.632. -/
theorem memstats_fields_of_match_witness :
    Metric.poolsUsed (mkRat 1143596 1000) ∈
      (collectStats "MEMSTATS: heap N/A mmap N/A used N/A free N/A releasable N/A pools 1 pools_used 1143.596M pools_total 1143.632M").1 ∧
    Metric.poolsTotal (mkRat 1143632 1000) ∈
      (collectStats "MEMSTATS: heap N/A mmap N/A used N/A free N/A releasable N/A pools 1 pools_used 1143.596M pools_total 1143.632M").1 ∧
    Metric.memHeap 0 ∉
      (collectStats "MEMSTATS: heap N/A mmap N/A used N/A free N/A releasable N/A pools 1 pools_used 1143.596M pools_total 1143.632M").1 := by
  have h := memstats_fields_of_match
    "MEMSTATS: heap N/A mmap N/A used N/A free N/A releasable N/A pools 1 pools_used 1143.596M pools_total 1143.632M"
    ⟨"N/A", "N/A", "N/A", "N/A", "N/A", "1", "1143.596", "1143.632"⟩
    (mkRat 1143596 1000) (mkRat 1143632 1000) (by decide) (by decide) (by decide)
  exact ⟨h.2.2.2.1, h.2.2.2.2, h.1.2 rfl 0⟩

/-- C6: on the VERSION reply `ClamAV 0.102.4/26168` the pass emits one
build_info observation with value 1 carrying `0.102.4` and `26168` as its
two labels; on any reply where the version regex has no match, nothing is
emitted and no error is raised. -/
theorem version_build_info :
    collectVersion "ClamAV 0.102.4/26168" = [Metric.buildInfo 1 "0.102.4" "26168"] ∧
    ∀ v : String, findFirst matchVersionAt v.toList = none → collectVersion v = [] := by
  constructor
  · decide
  · intro v h
    unfold collectVersion
    rw [h]

/-- C6 witness: a non-matching reply emits nothing. -/
theorem version_build_info_witness : collectVersion "PONG" = [] :=
  version_build_info.2 "PONG" (by decide)

/-- C7: the claim says every pass performs the three exchanges PING,
STATS, VERSION in order, and a failing sub-step never prevents the later
ones.  The code violates this: on the STATS reply below the MEMSTATS
pattern matches, the three integer gauges are emitted, then the
pools_used capture `1..5` fails conversion and `log.Fatalf` aborts the
process, so the VERSION exchange is never dialed. -/
theorem fatal_stats_skips_version :
    collect "PONG\n"
      "MEMSTATS: heap 1 mmap 2 used 3 free 4 releasable 5 pools 6 pools_used 1..5M pools_total 2M"
      "ClamAV 0.102.4/26168"
    = ([Command.ping, Command.stats],
        [Metric.up 1, Metric.memHeap 1, Metric.memMmap 2, Metric.memUsed 3], true) := by decide

/-- C8: for each of the three STATS sub-patterns, when a match exists at
position i and no match exists at any earlier position (i.e. the match at
i is the first occurrence in the text, `matches[0]`), the emitted block is
determined by that first occurrence's captures alone — later occurrences
cannot influence it. -/
theorem first_occurrence_determines_fields (s : String) (i1 i2 i3 : ℕ)
    (t : String × String × String) (n : String) (mc : MemCaps) :
    (matchThreadsAt (s.toList.drop i1) = some t →
      (∀ j, j < i1 → matchThreadsAt (s.toList.drop j) = none) →
      threadsBlock s.toList = andThen (emitFloat Metric.threadsLive t.1)
        (andThen (emitFloat Metric.threadsIdle t.2.1) (emitFloat Metric.threadsMax t.2.2))) ∧
    (matchQueueAt (s.toList.drop i2) = some n →
      (∀ j, j < i2 → matchQueueAt (s.toList.drop j) = none) →
      queueBlock s.toList = emitFloat Metric.queue n) ∧
    (matchMemstatsAt (s.toList.drop i3) = some mc →
      (∀ j, j < i3 → matchMemstatsAt (s.toList.drop j) = none) →
      memBlock s.toList = memEmit mc) := by
  refine ⟨fun hm hn => ?_, fun hm hn => ?_, fun hm hn => ?_⟩
  · have h := findFirst_min matchThreadsAt s.toList i1 t hm hn
    unfold threadsBlock
    rw [h]
  · have h := findFirst_min matchQueueAt s.toList i2 n hm hn
    unfold queueBlock
    rw [h]
  · have h := findFirst_min matchMemstatsAt s.toList i3 mc hm hn
    unfold memBlock
    rw [h]

/-- C8 witness: a STATS text with two THREADS lines, two QUEUE lines and
two MEMSTATS lines; the emitted blocks come from the first occurrence of
each (positions 0, 60 and 92). -/
theorem first_occurrence_determines_fields_witness :
    threadsBlock ("THREADS: live 1  idle 2 max 3 THREADS: live 7  idle 8 max 9 QUEUE:: 4 items QUEUE:: 5 items MEMSTATS: heap N/A mmap N/A used N/A free N/A releasable N/A pools 1 pools_used 1.5M pools_total 2.5M MEMSTATS: heap 9 mmap 9 used 9 free 9 releasable 9 pools 9 pools_used 9.9M pools_total 9.9M" : String).toList
      = andThen (emitFloat Metric.threadsLive "1")
          (andThen (emitFloat Metric.threadsIdle "2") (emitFloat Metric.threadsMax "3")) ∧
    queueBlock ("THREADS: live 1  idle 2 max 3 THREADS: live 7  idle 8 max 9 QUEUE:: 4 items QUEUE:: 5 items MEMSTATS: heap N/A mmap N/A used N/A free N/A releasable N/A pools 1 pools_used 1.5M pools_total 2.5M MEMSTATS: heap 9 mmap 9 used 9 free 9 releasable 9 pools 9 pools_used 9.9M pools_total 9.9M" : String).toList
      = emitFloat Metric.queue "4" ∧
    memBlock ("THREADS: live 1  idle 2 max 3 THREADS: live 7  idle 8 max 9 QUEUE:: 4 items QUEUE:: 5 items MEMSTATS: heap N/A mmap N/A used N/A free N/A releasable N/A pools 1 pools_used 1.5M pools_total 2.5M MEMSTATS: heap 9 mmap 9 used 9 free 9 releasable 9 pools 9 pools_used 9.9M pools_total 9.9M" : String).toList
      = memEmit ⟨"N/A", "N/A", "N/A", "N/A", "N/A", "1", "1.5", "2.5"⟩ := by
  have h := first_occurrence_determines_fields
    "THREADS: live 1  idle 2 max 3 THREADS: live 7  idle 8 max 9 QUEUE:: 4 items QUEUE:: 5 items MEMSTATS: heap N/A mmap N/A used N/A free N/A releasable N/A pools 1 pools_used 1.5M pools_total 2.5M MEMSTATS: heap 9 mmap 9 used 9 free 9 releasable 9 pools 9 pools_used 9.9M pools_total 9.9M"
    0 60 92 ("1", "2", "3") "4" ⟨"N/A", "N/A", "N/A", "N/A", "N/A", "1", "1.5", "2.5"⟩
  exact ⟨h.1 (by decide) (by decide), h.2.1 (by decide) (by decide),
    h.2.2 (by decide) (by decide)⟩

/-- C9: the MEMSTATS extraction is all-or-nothing — when the MEMSTATS
regex has no match in the reply (any deviant token prevents the whole
line from matching), all five memory and pools fields are absent,
including the nominally required pools fields. -/
theorem memstats_all_or_nothing (s : String)
    (h : findFirst matchMemstatsAt s.toList = none) (q : ℚ) :
    Metric.memHeap q ∉ (collectStats s).1 ∧
    Metric.memMmap q ∉ (collectStats s).1 ∧
    Metric.memUsed q ∉ (collectStats s).1 ∧
    Metric.poolsUsed q ∉ (collectStats s).1 ∧
    Metric.poolsTotal q ∉ (collectStats s).1 := by
  refine ⟨fun hmem => ?_, fun hmem => ?_, fun hmem => ?_, fun hmem => ?_, fun hmem => ?_⟩ <;>
  · have hx := mem_collectStats_memMetric hmem rfl
    rw [memBlock_eq_none h] at hx
    exact List.not_mem_nil _ hx

/-- C9 witness: a MEMSTATS line whose `free` token deviates (`FOO`) —
nothing is emitted, not even the pools fields that are present and
well-formed in the text. -/
theorem memstats_all_or_nothing_witness :
    Metric.memHeap 0 ∉
      (collectStats "MEMSTATS: heap 11 mmap 22 used 33 free FOO releasable 5 pools 1 pools_used 1.5M pools_total 2.5M").1 ∧
    Metric.memMmap 0 ∉
      (collectStats "MEMSTATS: heap 11 mmap 22 used 33 free FOO releasable 5 pools 1 pools_used 1.5M pools_total 2.5M").1 ∧
    Metric.memUsed 0 ∉
      (collectStats "MEMSTATS: heap 11 mmap 22 used 33 free FOO releasable 5 pools 1 pools_used 1.5M pools_total 2.5M").1 ∧
    Metric.poolsUsed 0 ∉
      (collectStats "MEMSTATS: heap 11 mmap 22 used 33 free FOO releasable 5 pools 1 pools_used 1.5M pools_total 2.5M").1 ∧
    Metric.poolsTotal 0 ∉
      (collectStats "MEMSTATS: heap 11 mmap 22 used 33 free FOO releasable 5 pools 1 pools_used 1.5M pools_total 2.5M").1 :=
  memstats_all_or_nothing
    "MEMSTATS: heap 11 mmap 22 used 33 free FOO releasable 5 pools 1 pools_used 1.5M pools_total 2.5M"
    (by decide) 0

/-- C10: the version sub-patterns `[0-9.]*` admit empty matches, so the
reply `ClamAV /` produces a build_info observation whose two version
labels are both the empty string — an empty capture is not treated as a
non-match. -/
theorem version_empty_captures_emit :
    collectVersion "ClamAV /" = [Metric.buildInfo 1 "" ""] := by decide

end ClamAV
